import Mathlib

/-!
# Verification of `src/tcp_echo.cc` (tree_sim)

Shallow embedding of the latency-measurement program: the `CustomTcpClient`
packet generator and the `PacketReceived` latency recorder, over explicit
state and integer-nanosecond virtual time (ns-3 `Time` at `Time::NS`
resolution stores an integer count of nanoseconds; simulated time is
non-negative, so it is modelled as `Nat`).

Machine-integer conventions: `uint32_t` values are `Nat` reduced `% 2^32`
where C++ arithmetic can wrap; `uint64_t` timestamps are `Nat % 2^64`.
The payload bytes of a packet are the raw in-memory bytes of the
`uint64_t` timestamp, modelled little-endian (the host byte order on the
platforms the program targets); sender and receiver run in one process, so
both sides use the same order.

The C++ recorder stores `(receiveTime - sendTime).GetSeconds()`, a
`double`.  The `Time` subtraction itself is exact integer-nanosecond
arithmetic; `GetSeconds` is a fixed unit conversion to floating seconds
performed only for output.  The embedding records the exact signed
nanosecond difference (`Int`); the floating conversion is outside it.
-/

namespace TreeSim

/-- Little-endian base-256 serialisation of `t` into `w` bytes: the raw
in-memory bytes of an unsigned integer, as taken by
`Create<Packet>((uint8_t *)&timestampNs, sizeof(timestampNs))`. -/
def encodeLE : Nat → Nat → List Nat
  | 0, _ => []
  | w + 1, t => t % 256 :: encodeLE w (t / 256)

/-- Little-endian deserialisation of a byte list, as performed by
`packet->CopyData((uint8_t *)&timestampNs, sizeof(timestampNs))` reading
the bytes back into a `uint64_t`. -/
def decodeLE : List Nat → Nat
  | [] => 0
  | b :: bs => b + 256 * decodeLE bs

/-- A packet payload: its byte contents. `Packet::GetSize()` is the length. -/
structure Packet where
  bytes : List Nat
deriving Repr, DecidableEq

def Packet.size (p : Packet) : Nat := p.bytes.length

/-- The receiver call `CopyData(&timestampNs, 8)` reads the first 8 bytes
of the payload. -/
def decodeTimestamp (bs : List Nat) : Nat := decodeLE (bs.take 8)

/-- The sender lines `uint64_t timestampNs = sendTime.GetNanoSeconds()` and
`Create<Packet>(&timestampNs, 8)`: the 8 raw bytes of the 64-bit send
time (line 84-86 of `tcp_echo.cc`). -/
def buildPayload (sendTimeNs : Nat) : Packet :=
  ⟨encodeLE 8 (sendTimeNs % 2 ^ 64)⟩

/-- State of a `CustomTcpClient` (its member fields).  `m_socket` is the
owned transport handle: `none` models the null pointer. -/
structure ClientState where
  m_socket : Option Unit
  m_serverAddress : Nat
  m_packetSize : Nat
  m_numPackets : Nat
  m_intervalNs : Nat
  m_packetsSent : Nat
  m_connected : Bool
deriving Repr, DecidableEq

/-- The constructor `CustomTcpClient() : m_socket(0), m_connected(false)`
with the in-class initialiser `m_packetsSent = 0`; the remaining fields
are value-initialised. -/
def clientInit : ClientState :=
  { m_socket := none
    m_serverAddress := 0
    m_packetSize := 0
    m_numPackets := 0
    m_intervalNs := 0
    m_packetsSent := 0
    m_connected := false }

/-- Conversion of `Seconds(q)` to the integer-nanosecond `Time` representation.
The C++ evaluates `1.0 / rate` in binary floating point before the
conversion; the embedding uses the exact rational value. -/
def SecondsToNs (q : ℚ) : Nat := (⌊q * 1000000000⌋).toNat

/-- Embedding of `CustomTcpClient::Setup` (lines 33-39).  The C++ member is `void` and
contains no validation or failure path; the codomain is `Except` solely so
that the configuration error claimed by the spec is expressible — the
translation of the code is the `.ok` branch, which is always taken.
Arguments are `uint32_t`, hence the `% 2^32` reductions; the product
`rate * duration` is 32-bit multiplication and wraps.  With `rate = 0`
the C++ `1.0 / rate` is IEEE `+inf` (no trap); `ℚ` cannot represent it
and yields `0` here — no theorem below depends on the interval value at
`rate = 0`. -/
def Setup (s : ClientState) (serverAddress packetSize rate duration : Nat) :
    Except String ClientState :=
  .ok { s with
    m_serverAddress := serverAddress
    m_packetSize := packetSize % 2 ^ 32
    m_intervalNs := SecondsToNs (1 / ((rate % 2 ^ 32 : Nat) : ℚ))
    m_numPackets := (rate % 2 ^ 32) * (duration % 2 ^ 32) % 2 ^ 32 }

/-- Embedding of `CustomTcpClient::StartApplication` (lines 42-49): creates the socket
and initiates the connection; the connect callbacks are registered with
the transport, not state. -/
def StartApplication (s : ClientState) : ClientState :=
  { s with m_socket := some () }

/-- Embedding of `CustomTcpClient::StopApplication` (lines 51-58): closes the socket if
present and nulls the handle. -/
def StopApplication (s : ClientState) : ClientState :=
  { s with m_socket := none }

/-- State effect of `CustomTcpClient::ConnectionSucceeded` (lines 61-66):
sets `m_connected`; the immediate `SendPacket()` call it then makes is the
first invocation of the send chain, modelled by `runSends` below starting
at the connection instant. -/
def ConnectionSucceeded (s : ClientState) : ClientState :=
  { s with m_connected := true }

/-- Embedding of `CustomTcpClient::ConnectionFailed` (lines 68-71): logs only. -/
def ConnectionFailed (s : ClientState) : ClientState := s

/-- One invocation of `CustomTcpClient::SendPacket` (lines 73-94) at
virtual time `now` (ns).  Returns the new state and, when a packet was
sent, the packet together with the virtual time of the next scheduled
invocation (`Simulator::Schedule(m_interval, &SendPacket, this)` — the
schedule is unconditional within the sending branch).  `none` covers both
the null-socket early return and the exhausted-count case, in which the
state is unchanged and nothing is sent or scheduled. -/
def SendPacket (s : ClientState) (now : Nat) :
    ClientState × Option (Packet × Nat) :=
  if s.m_socket.isNone then (s, none)
  else if s.m_packetsSent < s.m_numPackets then
    ({ s with m_packetsSent := s.m_packetsSent + 1 },
      some (buildPayload now, now + s.m_intervalNs))
  else (s, none)

/-- The scheduler executing the self-rescheduling `SendPacket` chain that
begins with the invocation at time `now` (the one `ConnectionSucceeded`
makes), assuming no other event touches the client in between.  `fuel`
bounds the number of invocations; each chain is finite (each sending
invocation increments `m_packetsSent` toward `m_numPackets`), so any
sufficiently large fuel yields the full chain.  Returns the final state
and the list of `(sendTime, packet)` transmissions in order. -/
def runSends : Nat → ClientState → Nat → ClientState × List (Nat × Packet)
  | 0, s, _ => (s, [])
  | fuel + 1, s, now =>
    match SendPacket s now with
    | (s1, none) => (s1, [])
    | (s1, some (pkt, next)) =>
      let r := runSends fuel s1 next
      (r.1, (now, pkt) :: r.2)

/-- The global `std::vector<double> latencies` holds one sample per
recorded arrival; samples are modelled as exact signed nanosecond
differences (see the header comment on `GetSeconds`). -/
abbrev LatencyLog := List Int

/-- Embedding of `PacketReceived` (lines 109-130): the `PacketSink` `Rx` trace callback,
called at the arrival instant `receiveTimeNs = Simulator::Now()`.  If the
payload holds at least `sizeof(uint64_t)` bytes, the first 8 bytes are
decoded and `receiveTime - sendTime` is appended to `latencies`;
otherwise the arrival is logged (`NS_LOG_WARN`) and ignored. -/
def PacketReceived (latencies : LatencyLog) (packet : Packet)
    (receiveTimeNs : Nat) : LatencyLog :=
  if 8 ≤ packet.size then
    let timestampNs := decodeTimestamp packet.bytes
    let latency : Int := (receiveTimeNs : Int) - (timestampNs : Int)
    latencies ++ [latency]
  else latencies

/-- A sequence of arrivals `(packet, receiveTime)` processed in order by
the `Rx` callback. -/
def processArrivals (latencies : LatencyLog) (arrivals : List (Packet × Nat)) :
    LatencyLog :=
  arrivals.foldl (fun l a => PacketReceived l a.1 a.2) latencies

/-- The client configured in `main` (line 178):
`clientApp->Setup(serverAddress, 100, 10, 10)` — payload size 100, rate 10
packets per second, duration 10 seconds; the server address is abstracted
to `0`.  `Seconds(1.0 / 10)` is 100000000 ns and `10 * 10 = 100` packets. -/
def mainClient : ClientState :=
  { clientInit with
    m_packetSize := 100
    m_intervalNs := 100000000
    m_numPackets := 100 }

/-- A connected client configured for a single packet
(`m_numPackets = 1`), used to examine the last-send behaviour. -/
def oneShotClient : ClientState :=
  { clientInit with m_socket := some (), m_numPackets := 1 }

/-- The state of `oneShotClient` after its one transmission: count exhausted. -/
def oneShotClientDone : ClientState :=
  { oneShotClient with m_packetsSent := 1 }

/-- A connected client configured for two packets 5 ns apart, used to
exhibit the send schedule. -/
def twoShotClient : ClientState :=
  { clientInit with m_socket := some (), m_numPackets := 2, m_intervalNs := 5 }

/-- The state `Setup(serverAddress, 100, 0, 10)` would produce: a zero
rate yields `m_numPackets = 0`; the field values are spelled exactly as
`Setup` computes them (the C++ interval here is `Seconds(1.0 / 0)`,
IEEE `+inf`). -/
def zeroRateClient : ClientState :=
  { clientInit with
    m_serverAddress := 0
    m_packetSize := 100 % 2 ^ 32
    m_intervalNs := SecondsToNs (1 / ((0 % 2 ^ 32 : Nat) : ℚ))
    m_numPackets := 0 % 2 ^ 32 * (10 % 2 ^ 32) % 2 ^ 32 }

/-! ## Helper lemmas -/

theorem encodeLE_length (w t : Nat) : (encodeLE w t).length = w := by
  induction w generalizing t with
  | zero => rfl
  | succ w ih => simp [encodeLE, ih]

theorem decodeLE_encodeLE (w t : Nat) : decodeLE (encodeLE w t) = t % 256 ^ w := by
  induction w generalizing t with
  | zero => simp [encodeLE, decodeLE, Nat.mod_one]
  | succ w ih =>
    rw [encodeLE, decodeLE, ih, pow_succ', Nat.mod_mul]

theorem decodeTimestamp_buildPayload (t : Nat) :
    decodeTimestamp (buildPayload t).bytes = t % 2 ^ 64 := by
  have h8 : (8 : Nat) ≤ (encodeLE 8 (t % 2 ^ 64)).length := by
    rw [encodeLE_length]
  rw [buildPayload, decodeTimestamp, List.take_of_length_le h8,
    decodeLE_encodeLE, show (256 : Nat) ^ 8 = 2 ^ 64 by norm_num,
    Nat.mod_mod_of_dvd _ dvd_rfl]

theorem buildPayload_size (t : Nat) : (buildPayload t).size = 8 := by
  simp [buildPayload, Packet.size, encodeLE_length]

/-- Evaluation of `SendPacket` in the sending branch: socket present and
packets remain. -/
theorem SendPacket_send (s : ClientState) (now : Nat)
    (hsock : s.m_socket = some ()) (hlt : s.m_packetsSent < s.m_numPackets) :
    SendPacket s now =
      ({ s with m_packetsSent := s.m_packetsSent + 1 },
        some (buildPayload now, now + s.m_intervalNs)) := by
  simp [SendPacket, hsock, hlt]

/-- Evaluation of `SendPacket` with the count exhausted: no send, no
schedule, no change. -/
theorem SendPacket_done (s : ClientState) (now : Nat)
    (hge : s.m_numPackets ≤ s.m_packetsSent) :
    SendPacket s now = (s, none) := by
  unfold SendPacket
  rcases h : s.m_socket with _ | u
  · simp [h]
  · simp [h, Nat.not_lt.mpr hge]

/-- Full behaviour of the `SendPacket` chain when the socket stays present:
the transmissions occur at `now + k * interval` for `k < remaining`, there
are exactly `remaining = m_numPackets - m_packetsSent` of them, each
payload carries its own send time, and the final state has
`m_packetsSent = m_numPackets` (when it started `≤`). -/
theorem runSends_spec (fuel : Nat) :
    ∀ (s : ClientState) (now : Nat), s.m_socket = some () →
      s.m_numPackets - s.m_packetsSent < fuel →
      (runSends fuel s now).2 =
        (List.range (s.m_numPackets - s.m_packetsSent)).map
          (fun k => (now + k * s.m_intervalNs,
            buildPayload (now + k * s.m_intervalNs))) ∧
      (runSends fuel s now).1 =
        { s with m_packetsSent := max s.m_packetsSent s.m_numPackets } := by
  induction fuel with
  | zero => intro s now _ hfuel; omega
  | succ fuel ih =>
    intro s now hsock hfuel
    by_cases hlt : s.m_packetsSent < s.m_numPackets
    · have hstep := SendPacket_send s now hsock hlt
      have ihs := ih { s with m_packetsSent := s.m_packetsSent + 1 }
        (now + s.m_intervalNs) hsock (by simp; omega)
      rw [runSends, hstep]
      simp only at ihs
      constructor
      · simp only [ihs.1]
        have hrange : s.m_numPackets - s.m_packetsSent =
            (s.m_numPackets - (s.m_packetsSent + 1)) + 1 := by omega
        rw [hrange, List.range_succ_eq_map]
        simp only [List.map_cons, List.map_map, Nat.zero_mul, Nat.add_zero]
        congr 1
        apply List.map_congr_left
        intro k _
        simp only [Function.comp_apply, Nat.succ_eq_add_one]
        have : now + s.m_intervalNs + k * s.m_intervalNs =
            now + (k + 1) * s.m_intervalNs := by ring
        rw [this]
      · rw [ihs.2]
        have : max (s.m_packetsSent + 1) s.m_numPackets =
            max s.m_packetsSent s.m_numPackets := by omega
        simp [this]
    · have hge : s.m_numPackets ≤ s.m_packetsSent := Nat.not_lt.mp hlt
      rw [runSends, SendPacket_done s now hge]
      have h0 : s.m_numPackets - s.m_packetsSent = 0 := by omega
      have hmax : max s.m_packetsSent s.m_numPackets = s.m_packetsSent := by
        omega
      simp [h0, hmax]

/-- One arrival grows the log by one entry when the payload holds at
least 8 bytes and leaves it unchanged otherwise. -/
theorem PacketReceived_length (log : LatencyLog) (p : Packet) (rt : Nat) :
    (PacketReceived log p rt).length =
      log.length + (if 8 ≤ p.size then 1 else 0) := by
  unfold PacketReceived
  by_cases h : 8 ≤ p.size <;> simp [h]

/-- Processing a sequence of arrivals grows the log by the number of
arrivals whose payload holds at least 8 bytes. -/
theorem processArrivals_length (arrivals : List (Packet × Nat)) :
    ∀ log : LatencyLog, (processArrivals log arrivals).length =
      log.length + arrivals.countP (fun a => decide (8 ≤ a.1.size)) := by
  induction arrivals with
  | nil => intro log; simp [processArrivals]
  | cons a as ih =>
    intro log
    have hstep : processArrivals log (a :: as) =
        processArrivals (PacketReceived log a.1 a.2) as := rfl
    rw [hstep, ih, PacketReceived_length, List.countP_cons]
    by_cases h : 8 ≤ a.1.size
    · simp [h]; omega
    · simp [h]

/-- The call in `main`, `Setup(serverAddress, 100, 10, 10)`, produces
`mainClient`. -/
theorem Setup_mainClient : Setup clientInit 0 100 10 10 = .ok mainClient := by
  have hi : SecondsToNs (1 / ((10 % 2 ^ 32 : Nat) : ℚ)) = 100000000 := by
    norm_num [SecondsToNs]
    rfl
  rw [Setup, hi]
  rfl

/-! ## Claims -/

/-- C1: for every arrived payload of size at least 8 bytes, the sample
appended to the latency log is exactly `receiveTime` minus the send time
decoded from the first 8 payload bytes (exact integer-nanosecond `Time`
arithmetic), and it is non-negative whenever the decoded send time is at
most the receive time. -/
theorem PacketReceived_latency_exact (log : LatencyLog) (p : Packet)
    (rt : Nat) (h : 8 ≤ p.size) :
    PacketReceived log p rt =
      log ++ [(rt : Int) - (decodeTimestamp p.bytes : Int)] ∧
    (decodeTimestamp p.bytes ≤ rt →
      0 ≤ (rt : Int) - (decodeTimestamp p.bytes : Int)) := by
  refine ⟨by simp [PacketReceived, h], fun hle => ?_⟩
  omega

/-- C1 witness: a payload encoding send time 5 ns received at 7 ns. -/
theorem PacketReceived_latency_exact_witness :
    PacketReceived [] ⟨encodeLE 8 5⟩ 7 =
      [] ++ [(7 : Int) - (decodeTimestamp (encodeLE 8 5) : Int)] ∧
    0 ≤ (7 : Int) - (decodeTimestamp (encodeLE 8 5) : Int) :=
  ⟨(PacketReceived_latency_exact [] ⟨encodeLE 8 5⟩ 7 (by decide)).1,
    (PacketReceived_latency_exact [] ⟨encodeLE 8 5⟩ 7 (by decide)).2
      (by decide)⟩

/-- C3 counterexample: a client with `m_numPackets = 1`: the single
`SendPacket` invocation transmits, raises `m_packetsSent` to
`m_numPackets`, and nevertheless schedules a further invocation (the
schedule at line 92 is unconditional inside the sending branch). -/
theorem SendPacket_schedules_after_last_cex :
    ((SendPacket oneShotClient 0).1.m_packetsSent = 1) ∧
    ((SendPacket oneShotClient 0).1.m_numPackets = 1) ∧
    ((SendPacket oneShotClient 0).2.isSome = true) := by
  decide

/-- C3 amended: a `SendPacket` invocation schedules a successor exactly
when it transmitted (socket present and packets remaining) — including
the transmission that makes `m_packetsSent` reach `m_numPackets`; an
invocation that finds the count exhausted transmits nothing, schedules
nothing and leaves the state unchanged, so at most one trailing no-op
invocation follows the last send. -/
theorem SendPacket_schedule_iff (s : ClientState) (now : Nat) :
    ((SendPacket s now).2.isSome ↔
      s.m_socket = some () ∧ s.m_packetsSent < s.m_numPackets) ∧
    (s.m_numPackets ≤ s.m_packetsSent → SendPacket s now = (s, none)) := by
  constructor
  · rcases hs : s.m_socket with _ | u
    · simp [SendPacket, hs]
    · by_cases hlt : s.m_packetsSent < s.m_numPackets
      · simp [SendPacket, hs, hlt]
      · simp [SendPacket, hs, hlt]
  · exact fun hge => SendPacket_done s now hge

/-- C3 amended witness: the exhausted client of the counterexample state
after one send. -/
theorem SendPacket_schedule_iff_witness :
    ((SendPacket oneShotClientDone 5).2.isSome ↔
      oneShotClientDone.m_socket = some () ∧
        oneShotClientDone.m_packetsSent < oneShotClientDone.m_numPackets) ∧
    SendPacket oneShotClientDone 5 = (oneShotClientDone, none) :=
  ⟨(SendPacket_schedule_iff oneShotClientDone 5).1,
    (SendPacket_schedule_iff oneShotClientDone 5).2 (by decide)⟩

/-- C7 counterexample: a payload whose decoded send time (100 ns) exceeds
the receive time (50 ns) is appended to the latency log as the negative
sample `-50` exactly like a normal sample; `PacketReceived` performs no
sign check and no report. -/
theorem PacketReceived_negative_silently_cex :
    decodeTimestamp (encodeLE 8 100) = 100 ∧
    PacketReceived [] ⟨encodeLE 8 100⟩ 50 = [(-50 : Int)] := by
  decide

/-- C7 amended: an arrival whose decoded send time exceeds the receive
time is appended to the latency log as a negative sample through the very
same unconditional path as any other sample; no invariant-violation
check, report, or rejection occurs. -/
theorem PacketReceived_negative_appended (log : LatencyLog) (p : Packet)
    (rt : Nat) (hsize : 8 ≤ p.size)
    (hneg : (rt : Int) < (decodeTimestamp p.bytes : Int)) :
    PacketReceived log p rt =
      log ++ [(rt : Int) - (decodeTimestamp p.bytes : Int)] ∧
    (rt : Int) - (decodeTimestamp p.bytes : Int) < 0 := by
  refine ⟨by simp [PacketReceived, hsize], ?_⟩
  omega

/-- C7 amended witness: send time 100 ns, receive time 50 ns. -/
theorem PacketReceived_negative_appended_witness :
    PacketReceived [] ⟨encodeLE 8 100⟩ 50 =
      [] ++ [(50 : Int) - (decodeTimestamp (encodeLE 8 100) : Int)] ∧
    (50 : Int) - (decodeTimestamp (encodeLE 8 100) : Int) < 0 :=
  PacketReceived_negative_appended [] ⟨encodeLE 8 100⟩ 50 (by decide)
    (by decide)

/-- C9: after `StopApplication` has closed and released the socket, a
`SendPacket` invocation that still fires takes the null-socket early
return: it sends nothing, schedules nothing, and leaves the state exactly
unchanged. -/
theorem SendPacket_after_stop_noop (s : ClientState) (now : Nat) :
    (StopApplication s).m_socket = none ∧
    SendPacket (StopApplication s) now = (StopApplication s, none) := by
  exact ⟨rfl, by simp [SendPacket, StopApplication]⟩

/-- C10: decoding composed with encoding is the identity on every 64-bit
representable nanosecond send time, and an arrival with zero transit
delay (received at its own send time) yields the latency sample 0. -/
theorem timestamp_roundtrip (t : Nat) (h : t < 2 ^ 64) :
    decodeTimestamp (buildPayload t).bytes = t ∧
    PacketReceived [] (buildPayload t) t = [(0 : Int)] := by
  have hdec := decodeTimestamp_buildPayload t
  rw [Nat.mod_eq_of_lt h] at hdec
  refine ⟨hdec, ?_⟩
  have hsize : 8 ≤ (buildPayload t).size := by rw [buildPayload_size]
  simp [PacketReceived, hsize, hdec]

/-- C10 witness: send time 123456789 ns. -/
theorem timestamp_roundtrip_witness :
    decodeTimestamp (buildPayload 123456789).bytes = 123456789 ∧
    PacketReceived [] (buildPayload 123456789) 123456789 = [(0 : Int)] :=
  timestamp_roundtrip 123456789 (by norm_num)

/-- C2 counterexample: `rate = duration = 65536` is a valid configuration
(both positive), yet the 32-bit product wraps: `Setup` stores
`m_numPackets = 0`, not `floor(65536 * 65536) = 4294967296`. -/
theorem Setup_totalPackets_overflow_cex :
    (Setup clientInit 0 100 65536 65536).map ClientState.m_numPackets =
      .ok 0 ∧
    (65536 * 65536 : Nat) ≠ 0 := by
  exact ⟨rfl, by norm_num⟩

/-- C2 amended: `Setup` stores `totalPackets = rate * duration mod 2^32`
(32-bit multiplication) — equal to `floor(rate * duration)` whenever the
product is below `2^32` — and a generator that connects successfully and
is never stopped performs exactly `totalPackets` sends. -/
theorem Setup_totalPackets_send_count (s : ClientState)
    (addr psz rate dur : Nat) (s1 : ClientState)
    (hok : Setup s addr psz rate dur = .ok s1)
    (hsent : s.m_packetsSent = 0) :
    s1.m_numPackets = rate * dur % 2 ^ 32 ∧
    (rate * dur < 2 ^ 32 → s1.m_numPackets = rate * dur) ∧
    ∀ fuel t0, s1.m_numPackets < fuel →
      (runSends fuel (ConnectionSucceeded (StartApplication s1)) t0).2.length
        = s1.m_numPackets := by
  simp only [Setup, Except.ok.injEq] at hok
  have hnum : s1.m_numPackets = rate * dur % 2 ^ 32 := by
    rw [← hok, ← Nat.mul_mod]
  have hsent1 : s1.m_packetsSent = 0 := by
    rw [← hok]; exact hsent
  refine ⟨hnum, ?_, ?_⟩
  · intro hlt
    rw [hnum, Nat.mod_eq_of_lt hlt]
  · intro fuel t0 hfuel
    have h := runSends_spec fuel (ConnectionSucceeded (StartApplication s1))
      t0 rfl
      (by simp [ConnectionSucceeded, StartApplication]; omega)
    rw [h.1]
    simp [ConnectionSucceeded, StartApplication, hsent1]

/-- C2 amended witness: the `main` configuration
`Setup(serverAddress, 100, 10, 10)`, giving 100 packets, with the send
chain run to completion from virtual time 0. -/
theorem Setup_totalPackets_send_count_witness :
    mainClient.m_numPackets = 10 * 10 % 2 ^ 32 ∧
    mainClient.m_numPackets = 10 * 10 ∧
    (runSends 101 (ConnectionSucceeded (StartApplication mainClient))
      0).2.length = mainClient.m_numPackets := by
  have h := Setup_totalPackets_send_count clientInit 0 100 10 10
    mainClient Setup_mainClient rfl
  exact ⟨h.1, h.2.1 (by norm_num), h.2.2 101 0 (by decide)⟩

/-- C4 counterexample: `Setup` with rate 0 raises no configuration error —
the C++ member is `void` with no validation and always succeeds — and it
stores `m_numPackets = 0`. -/
theorem Setup_zero_rate_cex :
    (Setup clientInit 0 100 0 10).toOption.isSome = true ∧
    (Setup clientInit 0 100 0 10).map ClientState.m_numPackets = .ok 0 := by
  exact ⟨rfl, rfl⟩

/-- C4 amended: `Setup` with `packetsPerUnitTime = 0` performs no
validation and reports no error; it stores `totalPackets = 0` (and the
C++ interval `Seconds(1.0 / 0)`, IEEE `+inf`), the application still
starts and connects, and the generator then sends no packets. -/
theorem Setup_zero_rate_no_error (s : ClientState) (addr psz dur : Nat)
    (s1 : ClientState) (hok : Setup s addr psz 0 dur = .ok s1) :
    s1.m_numPackets = 0 ∧
    ∀ fuel t0,
      (runSends fuel (ConnectionSucceeded (StartApplication s1)) t0).2
        = [] := by
  simp only [Setup, Except.ok.injEq] at hok
  subst hok
  refine ⟨by simp, ?_⟩
  intro fuel t0
  cases fuel with
  | zero => rfl
  | succ n =>
    rw [runSends, SendPacket_done _ t0
      (by simp [ConnectionSucceeded, StartApplication])]

/-- C4 amended witness: `Setup(serverAddress, 100, 0, 10)` yields the
zero-packet configuration, and its send chain transmits nothing. -/
theorem Setup_zero_rate_no_error_witness :
    zeroRateClient.m_numPackets = 0 ∧
    (runSends 5 (ConnectionSucceeded (StartApplication zeroRateClient))
      0).2 = [] := by
  have h := Setup_zero_rate_no_error clientInit 0 100 10
    zeroRateClient rfl
  exact ⟨h.1, h.2 5 0⟩

/-- C5 counterexample: the `main` client is configured with
`payloadSize = 100`, yet the packet `SendPacket` writes is 8 bytes
(`Create<Packet>(&timestampNs, sizeof(timestampNs))` — `m_packetSize` is
stored but never used), so the payload is not the configured size. -/
theorem SendPacket_payload_size_cex :
    mainClient.m_packetSize = 100 ∧
    ((SendPacket (StartApplication mainClient) 2000000000).2.map
      (fun x => x.1.size)) = some 8 ∧
    (8 : Nat) ≠ 100 := by
  refine ⟨rfl, by decide, by norm_num⟩

/-- C5 amended: every payload `SendPacket` writes is a buffer of exactly
8 bytes (`sizeof(uint64_t)`), holding the send time as an unsigned
64-bit nanosecond count in the fixed (host) byte order; the configured
`payloadSize` is ignored, so there are no padding bytes. -/
theorem SendPacket_payload_format (s : ClientState) (now : Nat)
    (s1 : ClientState) (pkt : Packet) (next : Nat)
    (h : SendPacket s now = (s1, some (pkt, next))) :
    pkt.size = 8 ∧ decodeTimestamp pkt.bytes = now % 2 ^ 64 := by
  rcases hs : s.m_socket with _ | u
  · unfold SendPacket at h
    rw [hs] at h
    simp at h
  · by_cases hlt : s.m_packetsSent < s.m_numPackets
    · have hsend := SendPacket_send s now (by cases u; exact hs) hlt
      have heq := hsend.symm.trans h
      simp only [Prod.mk.injEq, Option.some.injEq] at heq
      obtain ⟨-, hpkt, -⟩ := heq
      subst hpkt
      exact ⟨buildPayload_size now, decodeTimestamp_buildPayload now⟩
    · have hdone := SendPacket_done s now (Nat.not_lt.mp hlt)
      rw [hdone] at h
      simp at h

/-- C5 amended witness: the `main` client sending at virtual time
2000000000 ns (its start time, 2 s). -/
theorem SendPacket_payload_format_witness :
    (buildPayload 2000000000).size = 8 ∧
    decodeTimestamp (buildPayload 2000000000).bytes =
      2000000000 % 2 ^ 64 :=
  SendPacket_payload_format (StartApplication mainClient) 2000000000
    { StartApplication mainClient with m_packetsSent := 1 }
    (buildPayload 2000000000) (2000000000 + 100000000) rfl

/-- C6: over any arrival sequence the latency log gains exactly one entry
per arrival whose payload holds at least 8 bytes, and an arrival smaller
than 8 bytes (logged and discarded) leaves the log unchanged. -/
theorem latencyLog_length_eq (arrivals : List (Packet × Nat)) :
    (processArrivals [] arrivals).length =
      arrivals.countP (fun a => decide (8 ≤ a.1.size)) ∧
    ∀ (log : LatencyLog) (p : Packet) (rt : Nat), p.size < 8 →
      PacketReceived log p rt = log := by
  refine ⟨by simpa using processArrivals_length arrivals [], ?_⟩
  intro log p rt hlt
  rw [PacketReceived, if_neg (by omega)]

/-- C6 witness: one well-formed arrival and one 2-byte arrival give a log
of length 1; the 2-byte arrival alone leaves an empty log empty. -/
theorem latencyLog_length_eq_witness :
    (processArrivals [] [(⟨encodeLE 8 5⟩, 7), (⟨[1, 2]⟩, 9)]).length =
      ([(⟨encodeLE 8 5⟩, 7), (⟨[1, 2]⟩, 9)] : List (Packet × Nat)).countP
        (fun a => decide (8 ≤ a.1.size)) ∧
    PacketReceived [] ⟨[1, 2]⟩ 9 = [] := by
  have h := latencyLog_length_eq [(⟨encodeLE 8 5⟩, 7), (⟨[1, 2]⟩, 9)]
  exact ⟨h.1, h.2 [] ⟨[1, 2]⟩ 9 (by decide)⟩

/-- C8: on connection success at virtual time `t0` the first packet goes
out immediately at `t0` (no initial delay) and the `k`-th packet at
`t0 + k * interval`: offsets `0, interval, ..., (totalPackets - 1) *
interval` relative to connection success. -/
theorem sends_at_connection_offsets (s : ClientState) (t0 fuel : Nat)
    (hsock : s.m_socket = some ()) (hsent : s.m_packetsSent = 0)
    (hfuel : s.m_numPackets < fuel) :
    (runSends fuel (ConnectionSucceeded s) t0).2.map Prod.fst =
      (List.range s.m_numPackets).map (fun k => t0 + k * s.m_intervalNs) := by
  have h := runSends_spec fuel (ConnectionSucceeded s) t0
    (by simpa [ConnectionSucceeded] using hsock)
    (by simp [ConnectionSucceeded]; omega)
  rw [h.1]
  simp [ConnectionSucceeded, hsent, List.map_map, Function.comp]

/-- C8 witness: a connected two-packet client with a 5 ns interval,
connection success at 7 ns: sends at 7 ns and 12 ns. -/
theorem sends_at_connection_offsets_witness :
    (runSends 3 (ConnectionSucceeded twoShotClient) 7).2.map Prod.fst =
      [7, 12] := by
  rw [sends_at_connection_offsets twoShotClient 7 3 rfl rfl (by decide)]
  decide

end TreeSim
